import Mathlib

/-
  Verification of the hyperlight-js specification against the repository.

  The file contains a shallow embedding of the parts of the repository the
  claims are about:

  * the error-enrichment wrapper of the Node.js host API (lib.js), which
    promotes bracketed ERR codes found at the start of error messages to a
    structured code field;
  * the guest time stub clock_gettime (stubs/clock.c);
  * the sandbox lifecycle state machine (Builder, Proto, Loaded-Runtime,
    Handlers-Loaded), the call path, the execution-monitor launch protocol
    and snapshot/restore.  The systems-language core implementing these is
    not shipped in this tree (only its tests, docs and bindings are), so
    those definitions are modelled from the specification text, as their
    doc comments state.
-/

namespace HyperlightJS

/-! ## Error enrichment wrapper (lib.js) -/

/-- Word characters of the regular expression class used by the wrapper:
letters, digits and underscore. -/
def isWordChar (c : Char) : Bool :=
  c.isAlphanum || c == '_'

/-- Whitespace characters matched by the trailing whitespace class of the
wrapper regular expression: the ECMAScript class is WhiteSpace (tab,
vertical tab, form feed, space, no-break space, zero-width no-break
space, and the Unicode space-separator category) together with the line
terminators (line feed, carriage return, line separator, paragraph
separator). -/
def isJsSpace (c : Char) : Bool :=
  c == ' ' || c == '\t' || c == '\n' || c == '\r' || c == '\x0b' || c == '\x0c' ||
  c == '\u00A0' || c == '\u1680' || (0x2000 ≤ c.val && c.val ≤ 0x200A) ||
  c == '\u2028' || c == '\u2029' || c == '\u202F' || c == '\u205F' ||
  c == '\u3000' || c == '\uFEFF'

/-- Matcher for the anchored regular expression of lib.js that recognises a
bracketed ERR code at the start of an error message: an opening bracket,
the literal letters E R R and an underscore, one or more word characters,
a closing bracket, then any run of whitespace.  On a match it returns the
captured code (without brackets) and the rest of the message after the
stripped whitespace. -/
def stripErrCode (cs : List Char) : Option (List Char × List Char) :=
  match cs with
  | '[' :: 'E' :: 'R' :: 'R' :: '_' :: rest =>
    match rest.takeWhile isWordChar, rest.dropWhile isWordChar with
    | [], _ => none
    | w, ']' :: rest2 =>
      some ('E' :: 'R' :: 'R' :: '_' :: w, rest2.dropWhile isJsSpace)
    | _, _ => none
  | _ => none

/-- A JavaScript Error object as the wrapper observes it: a message, an
optional code property, and the remaining properties (opaque, untouched). -/
structure ErrObj where
  message : String
  code : Option String
  extra : Nat
deriving DecidableEq

/-- A value reaching the wrapper: either an Error object or some other
JavaScript value (opaque). -/
inductive JsVal where
  | err (e : ErrObj)
  | nonError (v : Nat)
deriving DecidableEq

/-- The error-enrichment function of lib.js: when given an Error whose
message carries a bracketed ERR code, move the code into the code property
and strip the matched text from the message; otherwise return the value
untouched.  The same object is returned in every case. -/
def enrichError (v : JsVal) : JsVal :=
  match v with
  | .err e =>
    match stripErrCode e.message.data with
    | some (code, rest) =>
      .err { message := String.mk rest, code := some (String.mk code), extra := e.extra }
    | none => .err e
  | .nonError x => .nonError x

/-! ## Guest time stub (stubs/clock.c) -/

/-- The errno values the clock stub can set. -/
inductive Errno where
  | EINVAL
deriving DecidableEq

/-- The clock identifier for real time, as defined in the stub time header. -/
def CLOCK_REALTIME : Int := 0

/-- The clock identifier for monotonic time, as defined in the stub time
header. -/
def CLOCK_MONOTONIC : Int := 1

/-- A timespec structure: seconds and nanoseconds. -/
structure Timespec where
  tv_sec : Int
  tv_nsec : Int
deriving DecidableEq

/-- The observable outcome of a clock_gettime call: its return value, the
errno it set (none when it left errno alone) and the final contents of the
output timespec. -/
structure ClockOutcome where
  ret : Int
  errno : Option Errno
  tp : Timespec
deriving DecidableEq

/-- The guest clock_gettime stub.  The host-provided current time (filled
in by the host call) is the pair of seconds and nanoseconds.  Recognised
clock ids fill the timespec and return zero; any other id sets errno to
EINVAL, returns minus one and leaves the timespec unchanged. -/
def clock_gettime (currentTime : Nat × Nat) (clk_id : Int) (tp : Timespec) : ClockOutcome :=
  if clk_id = CLOCK_REALTIME ∨ clk_id = CLOCK_MONOTONIC then
    { ret := 0, errno := none,
      tp := { tv_sec := Int.ofNat currentTime.1, tv_nsec := Int.ofNat currentTime.2 } }
  else
    { ret := -1, errno := some Errno.EINVAL, tp := tp }

/-! ## Sandbox lifecycle state machine

The systems-language core implementing the four sandbox stages is not part
of this tree, so the machine below is modelled from the specification. -/

/-- Modelled from the spec: the error taxonomy of the core (the error codes
of the missing stage implementation, surfaced by the bindings with an ERR
code per entry). -/
inductive Err where
  | invalidArg
  | consumed
  | poisoned
  | cancelled
  | stackOverflow
  | guestAbort
  | internal
deriving DecidableEq

/-- Modelled from the spec: the Proto stage of the missing core, holding a
constructed vCPU with empty guest memory.  The configured input buffer size
is the only configuration item the later claims observe. -/
structure ProtoState where
  consumed : Bool
  inputBufferSize : Nat
deriving DecidableEq

/-- Modelled from the spec: the Builder stage of the missing core, which
accumulates strictly positive size options and is consumed by build. -/
structure BuilderState where
  consumed : Bool
  heapSize : Nat
  stackSize : Nat
  inputBufferSize : Nat
  outputBufferSize : Nat
deriving DecidableEq

/-- Modelled from the spec: the operations of the Builder stage.  The build
operation carries an oracle telling whether the hypervisor allocation
succeeds. -/
inductive BuilderOp where
  | setHeapSize (n : Int)
  | setStackSize (n : Int)
  | setInputBufferSize (n : Int)
  | setOutputBufferSize (n : Int)
  | build (hvOk : Bool)
deriving DecidableEq

/-- Modelled from the spec: one step of the Builder stage of the missing
core.  A consumed builder rejects everything; setters validate strict
positivity; build takes the stage atomically (one-shot take) and either
returns a Proto stage or fails with an internal error. -/
def builderStep (s : BuilderState) : BuilderOp → Except Err (Option ProtoState) × BuilderState
  | .setHeapSize n =>
    if s.consumed then (.error .consumed, s)
    else if n ≤ 0 then (.error .invalidArg, s)
    else (.ok none, { s with heapSize := n.toNat })
  | .setStackSize n =>
    if s.consumed then (.error .consumed, s)
    else if n ≤ 0 then (.error .invalidArg, s)
    else (.ok none, { s with stackSize := n.toNat })
  | .setInputBufferSize n =>
    if s.consumed then (.error .consumed, s)
    else if n ≤ 0 then (.error .invalidArg, s)
    else (.ok none, { s with inputBufferSize := n.toNat })
  | .setOutputBufferSize n =>
    if s.consumed then (.error .consumed, s)
    else if n ≤ 0 then (.error .invalidArg, s)
    else (.ok none, { s with outputBufferSize := n.toNat })
  | .build hvOk =>
    if s.consumed then (.error .consumed, s)
    else if hvOk then
      (.ok (some { consumed := false, inputBufferSize := s.inputBufferSize }),
       { s with consumed := true })
    else (.error .internal, { s with consumed := true })

/-- Modelled from the spec: the Loaded-Runtime stage of the missing core,
holding the vCPU, the initialised engine, and the in-memory handler
registry (routing key to source text, keys unique). -/
structure RuntimeState where
  consumed : Bool
  inputBufferSize : Nat
  registry : List (String × String)
deriving DecidableEq

/-- Modelled from the spec: the operation of the Proto stage.  The oracle
tells whether the guest-side engine bootstrap succeeds. -/
inductive ProtoOp where
  | loadRuntime (bootOk : Bool)
deriving DecidableEq

/-- Modelled from the spec: one step of the Proto stage of the missing
core.  The load-runtime operation takes the stage and either returns a
Loaded-Runtime stage with an empty registry or fails fatally with an
internal error. -/
def protoStep (s : ProtoState) : ProtoOp → Except Err (Option RuntimeState) × ProtoState
  | .loadRuntime bootOk =>
    if s.consumed then (.error .consumed, s)
    else if bootOk then
      (.ok (some { consumed := false, inputBufferSize := s.inputBufferSize, registry := [] }),
       { s with consumed := true })
    else (.error .internal, { s with consumed := true })

/-- Modelled from the spec: the Handlers-Loaded stage of the missing core,
holding the vCPU, engine and compiled handlers.  The engine-and-memory
state is abstracted as a natural number token; the poisoned flag is the
atomic boolean of the spec. -/
structure LoadedState where
  consumed : Bool
  poisoned : Bool
  vm : Nat
  inputBufferSize : Nat
deriving DecidableEq

/-- Modelled from the spec: the registry operations of the Loaded-Runtime
stage and its terminating get-loaded operation, whose oracle tells whether
compiling every registered handler inside the vCPU succeeds. -/
inductive RuntimeOp where
  | addHandler (name source : String)
  | removeHandler (name : String)
  | clearHandlers
  | getLoaded (compileOk : Bool)
deriving DecidableEq

/-- Modelled from the spec: one step of the Loaded-Runtime stage of the
missing core.  Registry operations do not enter the vCPU; an empty handler
name is rejected; re-adding a key overwrites it; get-loaded takes the
stage and compiles the handlers. -/
def runtimeStep (s : RuntimeState) : RuntimeOp → Except Err (Option LoadedState) × RuntimeState
  | .addHandler name source =>
    if s.consumed then (.error .consumed, s)
    else if name = "" then (.error .invalidArg, s)
    else
      (.ok none,
       { s with registry := (s.registry.filter (fun p => !(p.1 == name))) ++ [(name, source)] })
  | .removeHandler name =>
    if s.consumed then (.error .consumed, s)
    else if name = "" then (.error .invalidArg, s)
    else (.ok none, { s with registry := s.registry.filter (fun p => !(p.1 == name)) })
  | .clearHandlers =>
    if s.consumed then (.error .consumed, s)
    else (.ok none, { s with registry := [] })
  | .getLoaded compileOk =>
    if s.consumed then (.error .consumed, s)
    else if compileOk then
      (.ok (some { consumed := false, poisoned := false, vm := 0,
                   inputBufferSize := s.inputBufferSize }),
       { s with consumed := true })
    else (.error .internal, { s with consumed := true })

/-! ## Monitors, call options and the call path -/

/-- Modelled from the spec: a monitor of the missing monitor framework, as
the launch protocol observes it: whether its prepare phase succeeds, and
its stable short name. -/
structure Monitor where
  prepareOk : Bool
  name : String
deriving DecidableEq

/-- Modelled from the spec: the prepare phase of a monitor-set, which runs
each prepare in order and propagates the first failure unchanged as an
internal error (fail closed). -/
def prepareAll : List Monitor → Except Err Unit
  | [] => .ok ()
  | m :: ms => if m.prepareOk then prepareAll ms else .error .internal

/-- Modelled from the spec: the recognised call-handler option fields of
the missing call path: the two timeouts and the gc switch. -/
structure CallOptions where
  wallClockTimeoutMs : Option Int
  cpuTimeoutMs : Option Int
  gc : Option Bool
deriving DecidableEq

/-- Modelled from the spec: the implementation maximum for the timeout
options.  The spec asks for a cap of roughly 3600000 milliseconds (one
hour) and requires 4000000 to be rejected. -/
def maxTimeoutMs : Int := 3600000

/-- Modelled from the spec: timeout validation of the call path.  An
absent timeout is fine; a present one must be strictly positive and at
most the implementation maximum. -/
def validTimeout : Option Int → Bool
  | none => true
  | some t => decide (0 < t) && decide (t ≤ maxTimeoutMs)

/-- Modelled from the spec: whether the call path requests an engine
garbage-collection pass after the handler returns.  The gc option defaults
to true; only an explicit false skips the pass. -/
def gcRequested (opts : CallOptions) : Bool :=
  !(opts.gc == some false)

/-- Modelled from the spec: how one vCPU run of the missing core resolves,
with the engine-and-memory state it leaves behind: a normal return with an
output, a kill acknowledged mid-instruction (monitor fire or manual kill),
a guest abort, or a guest stack overflow. -/
inductive RunResult where
  | normal (output : String) (vm : Nat)
  | killed (vm : Nat)
  | aborted (vm : Nat)
  | overflowed (vm : Nat)
deriving DecidableEq

/-- Modelled from the spec: the guest semantics the missing core delegates
to - a deterministic function from the engine state, handler name and
event to the outcome of the run, plus the effect of a garbage-collection
pass on the engine state. -/
structure GuestSem where
  run : Nat → String → String → RunResult
  gcPass : Nat → Nat

/-- Modelled from the spec: a snapshot handle, an opaque immutable capture
of the complete vCPU and guest memory state at the moment it was taken. -/
structure Snapshot where
  vm : Nat
deriving DecidableEq

/-- Modelled from the spec: the call path of the Handlers-Loaded stage of
the missing core.  In order: the consumed check of the one-shot take, the
poisoned check, name and timeout validation, the input buffer capacity
check, the monitor prepare phase (fail closed), then the vCPU run with its
four exit reasons; a kill poisons the sandbox, as does a guest abort; a
normal return runs the gc pass unless the gc option is explicitly
false. -/
def callHandler (sem : GuestSem) (s : LoadedState) (name event : String)
    (opts : CallOptions) (monitors : List Monitor) :
    Except Err String × LoadedState :=
  if s.consumed then (.error .consumed, s)
  else if s.poisoned then (.error .poisoned, s)
  else if name = "" then (.error .invalidArg, s)
  else if !(validTimeout opts.wallClockTimeoutMs && validTimeout opts.cpuTimeoutMs) then
    (.error .invalidArg, s)
  else if s.inputBufferSize < event.length then (.error .internal, s)
  else
    match prepareAll monitors with
    | .error e => (.error e, s)
    | .ok _ =>
      match sem.run s.vm name event with
      | .normal out vmAfter =>
        (.ok out, { s with vm := if gcRequested opts then sem.gcPass vmAfter else vmAfter })
      | .killed vmAfter => (.error .cancelled, { s with vm := vmAfter, poisoned := true })
      | .aborted vmAfter => (.error .guestAbort, { s with vm := vmAfter, poisoned := true })
      | .overflowed vmAfter => (.error .stackOverflow, { s with vm := vmAfter })

/-- Modelled from the spec: the operations of the Handlers-Loaded stage of
the missing core: the call path, snapshot, restore (with an oracle for the
hypervisor apply), unload, and the two infallible read accessors. -/
inductive LoadedOp where
  | call (name event : String) (opts : CallOptions) (monitors : List Monitor)
  | snapshotOp
  | restoreOp (snap : Snapshot) (hvOk : Bool)
  | unloadOp
  | readInterruptHandle
  | readPoisoned
deriving DecidableEq

/-- Modelled from the spec: the observable successful outcomes of the
Handlers-Loaded stage operations. -/
inductive LoadedOut where
  | value (out : String)
  | snap (sn : Snapshot)
  | runtime (r : RuntimeState)
  | unit
  | handle
  | flag (b : Bool)
deriving DecidableEq

/-- Modelled from the spec: one step of the Handlers-Loaded stage of the
missing core.  Snapshot rejects a poisoned stage; restore applies the
snapshot and clears the poisoned flag on success, and leaves the stage in
its prior state on failure; unload takes the stage and returns a fresh
Loaded-Runtime stage with an empty registry; the interrupt-handle and
poisoned-flag reads are infallible. -/
def loadedStep (sem : GuestSem) (s : LoadedState) : LoadedOp → Except Err LoadedOut × LoadedState
  | .call name event opts monitors =>
    let r := callHandler sem s name event opts monitors
    (r.1.map LoadedOut.value, r.2)
  | .snapshotOp =>
    if s.consumed then (.error .consumed, s)
    else if s.poisoned then (.error .poisoned, s)
    else (.ok (.snap { vm := s.vm }), s)
  | .restoreOp snap hvOk =>
    if s.consumed then (.error .consumed, s)
    else if hvOk then (.ok .unit, { s with vm := snap.vm, poisoned := false })
    else (.error .internal, s)
  | .unloadOp =>
    if s.consumed then (.error .consumed, s)
    else
      (.ok (.runtime { consumed := false, inputBufferSize := s.inputBufferSize, registry := [] }),
       { s with consumed := true })
  | .readInterruptHandle => (.ok .handle, s)
  | .readPoisoned => (.ok (.flag s.poisoned), s)

/-- Run a sequence of Handlers-Loaded operations, collecting the outcome
of each step. -/
def runCalls (sem : GuestSem) : LoadedState → List LoadedOp → List (Except Err LoadedOut) × LoadedState
  | s, [] => ([], s)
  | s, op :: ops =>
    let r := loadedStep sem s op
    let rest := runCalls sem r.2 ops
    (r.1 :: rest.1, rest.2)

/-- The two read accessors of the Handlers-Loaded stage that the bindings
document as infallible getters. -/
def LoadedOp.isInfallibleRead : LoadedOp → Bool
  | .readInterruptHandle => true
  | .readPoisoned => true
  | _ => false

/-- The operations a poisoned Handlers-Loaded stage still accepts:
restore, unload and the two infallible read accessors. -/
def LoadedOp.exemptWhenPoisoned : LoadedOp → Bool
  | .restoreOp _ _ => true
  | .unloadOp => true
  | .readInterruptHandle => true
  | .readPoisoned => true
  | _ => false

/-! ## Raw call options (JSON level) -/

/-- A JSON-compatible field value of the raw options object. -/
inductive JsonVal where
  | num (n : Int)
  | bool (b : Bool)
  | str (s : String)
  | null
deriving DecidableEq

/-- Look a key up in a raw options object (first binding wins). -/
def lookupField (r : List (String × JsonVal)) (key : String) : Option JsonVal :=
  (r.find? (fun p => p.1 == key)).map (fun p => p.2)

/-- The option field names the call path recognises. -/
def recognizedOptionKeys : List String :=
  ["wallClockTimeoutMs", "cpuTimeoutMs", "gc"]

/-- Modelled from the spec: parsing of the raw call-handler options by the
missing call path.  A missing options value and an empty object both give
all fields absent; unrecognised fields are ignored. -/
def parseOptions : Option (List (String × JsonVal)) → CallOptions
  | none => { wallClockTimeoutMs := none, cpuTimeoutMs := none, gc := none }
  | some r =>
    { wallClockTimeoutMs :=
        match lookupField r "wallClockTimeoutMs" with
        | some (.num n) => some n
        | _ => none,
      cpuTimeoutMs :=
        match lookupField r "cpuTimeoutMs" with
        | some (.num n) => some n
        | _ => none,
      gc :=
        match lookupField r "gc" with
        | some (.bool b) => some b
        | _ => none }

/-- Modelled from the spec: the monitors the call path spawns for a parsed
options value - a wall-clock monitor when a wall-clock timeout is present
and a CPU-time monitor when a CPU timeout is present.  The wall-clock
prepare is infallible; the CPU-time prepare captures a per-thread clock
and may fail, which the oracle argument records. -/
def monitorsOf (opts : CallOptions) (cpuPrepareOk : Bool) : List Monitor :=
  (match opts.wallClockTimeoutMs with
   | some _ => [{ prepareOk := true, name := "wall-clock" }]
   | none => []) ++
  (match opts.cpuTimeoutMs with
   | some _ => [{ prepareOk := cpuPrepareOk, name := "cpu-time" }]
   | none => [])

/-- Modelled from the spec: the call path taken from the raw options value
the binding receives, deriving both the parsed options and the spawned
monitor set from it. -/
def callHandlerRaw (sem : GuestSem) (s : LoadedState) (name event : String)
    (rawOpts : Option (List (String × JsonVal))) (cpuPrepareOk : Bool) :
    Except Err String × LoadedState :=
  callHandler sem s name event (parseOptions rawOpts)
    (monitorsOf (parseOptions rawOpts) cpuPrepareOk)

/-! ## Concrete instances used by witnesses and counterexamples -/

/-- A guest semantics whose every run returns normally with a fixed
output and leaves the engine state alone. -/
def semNormal : GuestSem :=
  { run := fun vm _ _ => .normal "out" vm, gcPass := fun vm => vm }

/-- A guest semantics whose every run is killed mid-instruction. -/
def semKilled : GuestSem :=
  { run := fun vm _ _ => .killed vm, gcPass := fun vm => vm }

/-- A fresh, healthy Handlers-Loaded stage. -/
def freshLoaded : LoadedState :=
  { consumed := false, poisoned := false, vm := 0, inputBufferSize := 100 }

/-- A poisoned, unconsumed Handlers-Loaded stage. -/
def poisonedLoaded : LoadedState :=
  { consumed := false, poisoned := true, vm := 0, inputBufferSize := 100 }

/-- Call options with every field absent. -/
def noOpts : CallOptions :=
  { wallClockTimeoutMs := none, cpuTimeoutMs := none, gc := none }

/-- A fresh, unconsumed Loaded-Runtime stage with an empty registry. -/
def freshRuntime : RuntimeState :=
  { consumed := false, inputBufferSize := 100, registry := [] }

/-- A fresh, unconsumed Builder stage. -/
def freshBuilder : BuilderState :=
  { consumed := false, heapSize := 1, stackSize := 1, inputBufferSize := 1,
    outputBufferSize := 1 }

/-- The builder stage after its one-shot take. -/
def spentBuilder : BuilderState :=
  { consumed := true, heapSize := 1, stackSize := 1, inputBufferSize := 1,
    outputBufferSize := 1 }

/-- Decidable equality for outcomes, so that concrete instances can be
settled by evaluation. -/
instance {ε α : Type} [DecidableEq ε] [DecidableEq α] : DecidableEq (Except ε α) := fun x y =>
  match x, y with
  | .error a, .error b =>
    if h : a = b then isTrue (by rw [h]) else isFalse (fun hc => by cases hc; exact h rfl)
  | .ok a, .ok b =>
    if h : a = b then isTrue (by rw [h]) else isFalse (fun hc => by cases hc; exact h rfl)
  | .error _, .ok _ => isFalse (fun hc => by cases hc)
  | .ok _, .error _ => isFalse (fun hc => by cases hc)

/-! ## Helper lemmas -/

theorem takeWhile_append_all {α} (p : α → Bool) (l₁ l₂ : List α)
    (h : ∀ c ∈ l₁, p c = true) :
    (l₁ ++ l₂).takeWhile p = l₁ ++ l₂.takeWhile p := by
  induction l₁ with
  | nil => rfl
  | cons a l ih =>
    have ha : p a = true := h a (List.mem_cons_self a l)
    simp only [List.cons_append, List.takeWhile_cons, ha, ite_true]
    rw [ih (fun c hc => h c (List.mem_cons_of_mem a hc))]

theorem dropWhile_append_all {α} (p : α → Bool) (l₁ l₂ : List α)
    (h : ∀ c ∈ l₁, p c = true) :
    (l₁ ++ l₂).dropWhile p = l₂.dropWhile p := by
  induction l₁ with
  | nil => rfl
  | cons a l ih =>
    have ha : p a = true := h a (List.mem_cons_self a l)
    simp only [List.cons_append, List.dropWhile_cons, ha, ite_true]
    exact ih (fun c hc => h c (List.mem_cons_of_mem a hc))

theorem dropWhile_head_false {α} (p : α → Bool) (l : List α)
    (h : ∀ c, l.head? = some c → p c = false) :
    l.dropWhile p = l := by
  cases l with
  | nil => rfl
  | cons a t =>
    have ha : p a = false := h a rfl
    simp [List.dropWhile_cons, ha]

theorem except_map_error_inv {α β γ} (f : α → β) (r : Except γ α) (c : γ)
    (h : r.map f = .error c) : r = .error c := by
  cases r with
  | error e => simpa [Except.map] using h
  | ok a => simp [Except.map] at h

theorem prepareAll_error_internal (ms : List Monitor) (er : Err)
    (h : prepareAll ms = .error er) : er = Err.internal := by
  induction ms with
  | nil => simp [prepareAll] at h
  | cons m t ih =>
    cases hm : m.prepareOk
    · simp [prepareAll, hm] at h
      exact h.symm
    · simp only [prepareAll, hm, ite_true] at h
      exact ih h

theorem prepareAll_fails (ms : List Monitor) (h : ∃ m ∈ ms, m.prepareOk = false) :
    prepareAll ms = .error .internal := by
  induction ms with
  | nil =>
    rcases h with ⟨m, hm, _⟩
    exact absurd hm (List.not_mem_nil m)
  | cons a t ih =>
    cases ha : a.prepareOk
    · simp [prepareAll, ha]
    · rcases h with ⟨m, hm, hp⟩
      rcases List.mem_cons.mp hm with rfl | hmt
      · exact absurd hp (by simp [ha])
      · simp only [prepareAll, ha, ite_true]
        exact ih ⟨m, hmt, hp⟩

theorem validTimeout_false_of_bad {t : Int} (h : t ≤ 0 ∨ maxTimeoutMs < t) :
    validTimeout (some t) = false := by
  rcases h with h | h
  · have hx : ¬(0 < t) := not_lt.mpr h
    simp [validTimeout, hx]
  · have hx : ¬(t ≤ maxTimeoutMs) := not_le.mpr h
    simp [validTimeout, hx]

theorem callHandler_cancelled_poisons (sem : GuestSem) (s : LoadedState) (n e : String)
    (opts : CallOptions) (ms : List Monitor)
    (h : (callHandler sem s n e opts ms).1 = Except.error Err.cancelled) :
    (callHandler sem s n e opts ms).2.poisoned = true := by
  cases hsc : s.consumed
  · cases hsp : s.poisoned
    · by_cases hn : n = ""
      · simp [callHandler, hsc, hsp, hn] at h
      · cases hvt : (validTimeout opts.wallClockTimeoutMs && validTimeout opts.cpuTimeoutMs)
        · simp [callHandler, hsc, hsp, hn, hvt] at h
        · by_cases hbuf : s.inputBufferSize < e.length
          · simp [callHandler, hsc, hsp, hn, hvt, hbuf] at h
          · cases hpa : prepareAll ms with
            | error er =>
              have her : er = Err.internal := prepareAll_error_internal ms er hpa
              subst her
              simp [callHandler, hsc, hsp, hn, hvt, hbuf, hpa] at h
            | ok u =>
              cases hrun : sem.run s.vm n e with
              | normal out vmA => simp [callHandler, hsc, hsp, hn, hvt, hbuf, hpa, hrun] at h
              | killed vmA => simp [callHandler, hsc, hsp, hn, hvt, hbuf, hpa, hrun]
              | aborted vmA => simp [callHandler, hsc, hsp, hn, hvt, hbuf, hpa, hrun] at h
              | overflowed vmA => simp [callHandler, hsc, hsp, hn, hvt, hbuf, hpa, hrun] at h
    · simp [callHandler, hsc, hsp] at h
  · simp [callHandler, hsc] at h

/-! ## C1: poisoning after a cancelled call, clearing after restore -/

/-- C1: on a Handlers-Loaded stage, whenever a call returns the cancelled
error (whether a monitor fired or a manual kill terminated it, both of
which surface as a kill acknowledged by the vCPU), the subsequent
poisoned-flag read returns true; and after any successful restore the
subsequent poisoned-flag read returns false. -/
theorem poison_after_cancel_clear_after_restore :
    (∀ sem s n e opts ms,
      (loadedStep sem s (.call n e opts ms)).1 = .error .cancelled →
      (loadedStep sem ((loadedStep sem s (.call n e opts ms)).2) .readPoisoned).1 =
        .ok (.flag true)) ∧
    (∀ sem s snap hv,
      (loadedStep sem s (.restoreOp snap hv)).1 = .ok .unit →
      (loadedStep sem ((loadedStep sem s (.restoreOp snap hv)).2) .readPoisoned).1 =
        .ok (.flag false)) := by
  constructor
  · intro sem s n e opts ms h
    have h1 : (callHandler sem s n e opts ms).1 = .error .cancelled :=
      except_map_error_inv _ _ _ (by simpa [loadedStep] using h)
    simp [loadedStep, callHandler_cancelled_poisons sem s n e opts ms h1]
  · intro sem s snap hv h
    simp only [loadedStep] at h ⊢
    cases hsc : s.consumed
    · cases hhv : hv
      · simp [hsc, hhv] at h
      · simp [hsc, hhv]
    · simp [hsc] at h

/-- Witness for C1: a guest run that is killed leaves the poisoned flag
reading true, and a successful restore on a poisoned stage leaves it
reading false. -/
theorem poison_after_cancel_clear_after_restore_w :
    (loadedStep semKilled freshLoaded (.call "h" "e" noOpts [])).1 = .error .cancelled ∧
    (loadedStep semKilled ((loadedStep semKilled freshLoaded (.call "h" "e" noOpts [])).2)
      .readPoisoned).1 = .ok (.flag true) ∧
    (loadedStep semNormal poisonedLoaded (.restoreOp { vm := 0 } true)).1 = .ok .unit ∧
    (loadedStep semNormal ((loadedStep semNormal poisonedLoaded
      (.restoreOp { vm := 0 } true)).2) .readPoisoned).1 = .ok (.flag false) := by
  have hcall : (loadedStep semKilled freshLoaded (.call "h" "e" noOpts [])).1 =
      .error .cancelled := by decide
  have hrest : (loadedStep semNormal poisonedLoaded (.restoreOp { vm := 0 } true)).1 =
      .ok .unit := by decide
  exact ⟨hcall, poison_after_cancel_clear_after_restore.1 _ _ _ _ _ _ hcall, hrest,
    poison_after_cancel_clear_after_restore.2 _ _ _ _ hrest⟩

/-! ## C3: monitor prepare failure is fail-closed -/

/-- C3: on a live, healthy Handlers-Loaded stage, a call whose monitor set
contains a monitor whose prepare phase fails returns the internal error
and leaves the stage exactly as it was: the vCPU is never entered (the
engine state is untouched, so the handler has no side effects) and the
stage is not poisoned. -/
theorem monitor_prepare_fail_closed (sem : GuestSem) (s : LoadedState) (n e : String)
    (opts : CallOptions) (ms : List Monitor)
    (hc : s.consumed = false) (hp : s.poisoned = false) (hn : n ≠ "")
    (hw : validTimeout opts.wallClockTimeoutMs = true)
    (hcp : validTimeout opts.cpuTimeoutMs = true)
    (hbuf : e.length ≤ s.inputBufferSize)
    (hm : ∃ m ∈ ms, m.prepareOk = false) :
    callHandler sem s n e opts ms = (.error .internal, s) := by
  simp [callHandler, hc, hp, hn, hw, hcp, Nat.not_lt.mpr hbuf, prepareAll_fails ms hm]

/-- Witness for C3: a single failing monitor makes a concrete call fail
with the internal error and leaves the fresh stage unchanged. -/
theorem monitor_prepare_fail_closed_w :
    callHandler semNormal freshLoaded "h" "e" noOpts [{ prepareOk := false, name := "m" }] =
      (.error .internal, freshLoaded) :=
  monitor_prepare_fail_closed _ _ _ _ _ _ rfl rfl (by decide) rfl rfl (by decide)
    ⟨{ prepareOk := false, name := "m" }, by simp, rfl⟩

/-! ## C6: timeout validation -/

/-- C6: on a live, healthy Handlers-Loaded stage, a call whose wall-clock
or CPU timeout option is present and zero, negative, or above the
implementation maximum fails with the invalid-arg error and leaves the
stage unchanged.  The maximum is modelled as 3600000 milliseconds, so a
value of four million milliseconds is rejected. -/
theorem timeout_validation (sem : GuestSem) (s : LoadedState) (n e : String)
    (opts : CallOptions) (ms : List Monitor)
    (hc : s.consumed = false) (hp : s.poisoned = false)
    (hbad : (∃ t, opts.wallClockTimeoutMs = some t ∧ (t ≤ 0 ∨ maxTimeoutMs < t)) ∨
            (∃ t, opts.cpuTimeoutMs = some t ∧ (t ≤ 0 ∨ maxTimeoutMs < t))) :
    callHandler sem s n e opts ms = (.error .invalidArg, s) := by
  by_cases hn : n = ""
  · simp [callHandler, hc, hp, hn]
  · rcases hbad with ⟨t, ht, hb⟩ | ⟨t, ht, hb⟩
    · simp [callHandler, hc, hp, hn, ht, validTimeout_false_of_bad hb]
    · simp [callHandler, hc, hp, hn, ht, validTimeout_false_of_bad hb]

/-- Witness for C6: a wall-clock timeout of four million milliseconds and
a CPU timeout of zero are both rejected with the invalid-arg error. -/
theorem timeout_validation_w :
    callHandler semNormal freshLoaded "h" "e"
      { wallClockTimeoutMs := some 4000000, cpuTimeoutMs := none, gc := none } [] =
      (.error .invalidArg, freshLoaded) ∧
    callHandler semNormal freshLoaded "h" "e"
      { wallClockTimeoutMs := none, cpuTimeoutMs := some 0, gc := none } [] =
      (.error .invalidArg, freshLoaded) :=
  ⟨timeout_validation _ _ _ _ _ _ rfl rfl (Or.inl ⟨4000000, rfl, Or.inr (by decide)⟩),
   timeout_validation _ _ _ _ _ _ rfl rfl (Or.inr ⟨0, rfl, Or.inl (by decide)⟩)⟩

/-! ## C7: empty handler names -/

/-- C7: an empty handler name is rejected with the invalid-arg error by
the registry add and remove operations of a live Loaded-Runtime stage and
by the call path of a live, healthy Handlers-Loaded stage, with the stage
left unchanged in each case. -/
theorem empty_name_invalid :
    (∀ s src, s.consumed = false →
      runtimeStep s (.addHandler "" src) = (.error .invalidArg, s)) ∧
    (∀ s, s.consumed = false →
      runtimeStep s (.removeHandler "") = (.error .invalidArg, s)) ∧
    (∀ sem s e opts ms, s.consumed = false → s.poisoned = false →
      callHandler sem s "" e opts ms = (.error .invalidArg, s)) := by
  refine ⟨fun s src hc => ?_, fun s hc => ?_, fun sem s e opts ms hc hp => ?_⟩
  · simp [runtimeStep, hc]
  · simp [runtimeStep, hc]
  · simp [callHandler, hc, hp]

/-- Witness for C7: the empty name is rejected by add, remove and call on
concrete fresh stages. -/
theorem empty_name_invalid_w :
    runtimeStep freshRuntime (.addHandler "" "function handler(e) then") =
      (.error .invalidArg, freshRuntime) ∧
    runtimeStep freshRuntime (.removeHandler "") = (.error .invalidArg, freshRuntime) ∧
    callHandler semNormal freshLoaded "" "e" noOpts [] = (.error .invalidArg, freshLoaded) :=
  ⟨empty_name_invalid.1 _ _ rfl, empty_name_invalid.2.1 _ rfl,
   empty_name_invalid.2.2 _ _ _ _ _ rfl rfl⟩

theorem builderStep_consumed (s : BuilderState) (op : BuilderOp) (h : s.consumed = true) :
    (builderStep s op).1 = .error .consumed := by
  cases op <;> simp [builderStep, h]

theorem protoStep_consumed (s : ProtoState) (op : ProtoOp) (h : s.consumed = true) :
    (protoStep s op).1 = .error .consumed := by
  cases op
  simp [protoStep, h]

theorem runtimeStep_consumed (s : RuntimeState) (op : RuntimeOp) (h : s.consumed = true) :
    (runtimeStep s op).1 = .error .consumed := by
  cases op <;> simp [runtimeStep, h]

theorem loadedStep_consumed (sem : GuestSem) (s : LoadedState) (op : LoadedOp)
    (h : s.consumed = true) (hop : op.isInfallibleRead = false) :
    (loadedStep sem s op).1 = .error .consumed := by
  cases op with
  | call n e opts ms => simp [loadedStep, callHandler, h, Except.map]
  | snapshotOp => simp [loadedStep, h]
  | restoreOp snap hv => simp [loadedStep, h]
  | unloadOp => simp [loadedStep, h]
  | readInterruptHandle => simp [LoadedOp.isInfallibleRead] at hop
  | readPoisoned => simp [LoadedOp.isInfallibleRead] at hop

/-! ## C2: consumption is terminal -/

/-- Counterexample to C2 as stated: after a successful unload has consumed
a Handlers-Loaded stage, the interrupt-handle read (an operation of that
stage, documented as an infallible getter obtainable at any time) still
succeeds rather than failing with the consumed error. -/
theorem consumed_after_terminator_cex :
    (loadedStep semNormal freshLoaded .unloadOp).1 =
      .ok (.runtime { consumed := false, inputBufferSize := 100, registry := [] }) ∧
    (loadedStep semNormal ((loadedStep semNormal freshLoaded .unloadOp).2)
      .readInterruptHandle).1 = .ok .handle ∧
    (loadedStep semNormal ((loadedStep semNormal freshLoaded .unloadOp).2)
      .readInterruptHandle).1 ≠ .error .consumed := by
  refine ⟨by decide, by decide, by decide⟩

/-- C2 (amended): for every stage and its terminating operation, once the
terminating operation has succeeded on a stage instance, every subsequent
operation on that same instance - including a second invocation of the
terminating operation itself, and any setter or registry operation - fails
with the consumed error, with the exception of the infallible read
accessors of the Handlers-Loaded stage (the interrupt-handle and
poisoned-flag reads), which never fail. -/
theorem consumed_after_terminator :
    (∀ s s1 p hv, builderStep s (.build hv) = (.ok p, s1) →
      ∀ op, (builderStep s1 op).1 = .error .consumed) ∧
    (∀ s s1 p bootOk, protoStep s (.loadRuntime bootOk) = (.ok p, s1) →
      ∀ op, (protoStep s1 op).1 = .error .consumed) ∧
    (∀ s s1 p compileOk, runtimeStep s (.getLoaded compileOk) = (.ok p, s1) →
      ∀ op, (runtimeStep s1 op).1 = .error .consumed) ∧
    (∀ sem sem2 s s1 r, loadedStep sem s .unloadOp = (.ok r, s1) →
      ∀ op, op.isInfallibleRead = false →
        (loadedStep sem2 s1 op).1 = .error .consumed) := by
  refine ⟨?_, ?_, ?_, ?_⟩
  · intro s s1 p hv h op
    refine builderStep_consumed s1 op ?_
    cases hsc : s.consumed
    · cases hhv : hv
      · simp [builderStep, hsc, hhv] at h
      · simp [builderStep, hsc, hhv] at h
        rw [← h.2]
    · simp [builderStep, hsc] at h
  · intro s s1 p bootOk h op
    refine protoStep_consumed s1 op ?_
    cases hsc : s.consumed
    · cases hb : bootOk
      · simp [protoStep, hsc, hb] at h
      · simp [protoStep, hsc, hb] at h
        rw [← h.2]
    · simp [protoStep, hsc] at h
  · intro s s1 p compileOk h op
    refine runtimeStep_consumed s1 op ?_
    cases hsc : s.consumed
    · cases hk : compileOk
      · simp [runtimeStep, hsc, hk] at h
      · simp [runtimeStep, hsc, hk] at h
        rw [← h.2]
    · simp [runtimeStep, hsc] at h
  · intro sem sem2 s s1 r h op hop
    refine loadedStep_consumed sem2 s1 op ?_ hop
    cases hsc : s.consumed
    · simp [loadedStep, hsc] at h
      rw [← h.2]
    · simp [loadedStep, hsc] at h

/-- Witness for C2 (amended): after a concrete successful build, a setter
on the spent builder fails with the consumed error. -/
theorem consumed_after_terminator_w :
    builderStep freshBuilder (.build true) =
      (.ok (some { consumed := false, inputBufferSize := 1 }), spentBuilder) ∧
    (builderStep spentBuilder (.setHeapSize 5)).1 = .error .consumed := by
  have hb : builderStep freshBuilder (.build true) =
      (.ok (some { consumed := false, inputBufferSize := 1 }), spentBuilder) := by decide
  exact ⟨hb, consumed_after_terminator.1 freshBuilder _ _ true hb (.setHeapSize 5)⟩

/-! ## C4: snapshot and restore round trip -/

theorem loadedStep_snapshot_state (sem : GuestSem) (s : LoadedState) :
    (loadedStep sem s .snapshotOp).2 = s := by
  cases hsc : s.consumed <;> cases hsp : s.poisoned <;> simp [loadedStep, hsc, hsp]

theorem loadedStep_snapshot_ok (sem : GuestSem) (s : LoadedState) (snap : Snapshot)
    (h : (loadedStep sem s .snapshotOp).1 = .ok (.snap snap)) :
    s.consumed = false ∧ s.poisoned = false ∧ snap.vm = s.vm := by
  cases hsc : s.consumed
  · cases hsp : s.poisoned
    · rcases snap with ⟨sv⟩
      simp [loadedStep, hsc, hsp] at h
      exact ⟨rfl, rfl, by simp [← h]⟩
    · simp [loadedStep, hsc, hsp] at h
  · simp [loadedStep, hsc] at h

/-- C4: taking a snapshot of a Handlers-Loaded stage leaves the stage
unchanged, and restoring that snapshot - onto the unchanged stage or onto
any later live incarnation of it - brings the stage back to exactly the
state observed when the snapshot was taken, so that every sequence of
operations valid at that moment remains valid and produces identical
outcomes. -/
theorem snapshot_restore_roundtrip (sem : GuestSem) (s : LoadedState) (snap : Snapshot)
    (s1 : LoadedState)
    (h : loadedStep sem s .snapshotOp = (.ok (.snap snap), s1)) :
    s1 = s ∧
    ∀ sem2 s2, s2.consumed = false → s2.inputBufferSize = s.inputBufferSize →
      loadedStep sem2 s2 (.restoreOp snap true) = (.ok .unit, s) ∧
      ∀ ops, runCalls sem2 ((loadedStep sem2 s2 (.restoreOp snap true)).2) ops =
        runCalls sem2 s ops := by
  obtain ⟨hc, hp, hv⟩ := loadedStep_snapshot_ok sem s snap (by rw [h])
  have hs1 : s1 = s := by
    have hst := loadedStep_snapshot_state sem s
    rw [h] at hst
    exact hst
  refine ⟨hs1, ?_⟩
  intro sem2 s2 hc2 hib
  have hrs : loadedStep sem2 s2 (.restoreOp snap true) = (.ok .unit, s) := by
    rcases s with ⟨c, po, vm, ib⟩
    rcases s2 with ⟨c2, p2, v2, ib2⟩
    rcases snap with ⟨sv⟩
    simp only at hc hp hv hc2 hib
    subst hc hp hc2 hib hv
    simp [loadedStep]
  refine ⟨hrs, fun ops => ?_⟩
  rw [hrs]

/-- Witness for C4: a concrete snapshot of a fresh stage restores onto a
poisoned later state of the same sandbox, yielding back the fresh
state. -/
theorem snapshot_restore_roundtrip_w :
    loadedStep semNormal freshLoaded .snapshotOp = (.ok (.snap { vm := 0 }), freshLoaded) ∧
    loadedStep semNormal poisonedLoaded (.restoreOp { vm := 0 } true) =
      (.ok .unit, freshLoaded) := by
  have hsnap : loadedStep semNormal freshLoaded .snapshotOp =
      (.ok (.snap { vm := 0 }), freshLoaded) := by decide
  exact ⟨hsnap,
    ((snapshot_restore_roundtrip semNormal freshLoaded _ _ hsnap).2 semNormal poisonedLoaded
      rfl rfl).1⟩

/-! ## C5: the poisoned substate -/

/-- Counterexample to C5 as stated: on a poisoned, unconsumed
Handlers-Loaded stage, the interrupt-handle read - an operation that is
neither restore, nor unload, nor the poisoned-flag read - succeeds rather
than failing with the poisoned error. -/
theorem poisoned_rejects_cex :
    (loadedStep semNormal poisonedLoaded .readInterruptHandle).1 = .ok .handle ∧
    (loadedStep semNormal poisonedLoaded .readInterruptHandle).1 ≠ .error .poisoned := by
  refine ⟨rfl, by decide⟩

/-- C5 (amended): a Handlers-Loaded stage whose poisoned flag is set
rejects every operation other than restore, unload, the poisoned-flag
read and the interrupt-handle read with the poisoned error, leaving the
stage unchanged - in particular a call fails with the poisoned error
before any validation or vCPU entry; and restore is the only operation
after which the poisoned flag can read false. -/
theorem poisoned_rejects_amended (sem : GuestSem) (s : LoadedState) (op : LoadedOp)
    (hc : s.consumed = false) (hp : s.poisoned = true) :
    (op.exemptWhenPoisoned = false → loadedStep sem s op = (.error .poisoned, s)) ∧
    ((loadedStep sem s op).2.poisoned = false → ∃ snap hv, op = .restoreOp snap hv) := by
  cases op with
  | call n e opts ms =>
    constructor
    · intro _
      simp [loadedStep, callHandler, hc, hp, Except.map]
    · intro hq
      simp [loadedStep, callHandler, hc, hp] at hq
  | snapshotOp =>
    constructor
    · intro _
      simp [loadedStep, hc, hp]
    · intro hq
      simp [loadedStep, hc, hp] at hq
  | restoreOp snap hv =>
    exact ⟨fun hex => by simp [LoadedOp.exemptWhenPoisoned] at hex,
      fun _ => ⟨snap, hv, rfl⟩⟩
  | unloadOp =>
    constructor
    · intro hex
      simp [LoadedOp.exemptWhenPoisoned] at hex
    · intro hq
      simp [loadedStep, hc, hp] at hq
  | readInterruptHandle =>
    constructor
    · intro hex
      simp [LoadedOp.exemptWhenPoisoned] at hex
    · intro hq
      simp [loadedStep, hp] at hq
  | readPoisoned =>
    constructor
    · intro hex
      simp [LoadedOp.exemptWhenPoisoned] at hex
    · intro hq
      simp [loadedStep, hp] at hq

/-- Witness for C5 (amended): on a concrete poisoned stage, a call - even
one with an invalid empty name - and a snapshot both fail with the
poisoned error and leave the stage unchanged. -/
theorem poisoned_rejects_amended_w :
    loadedStep semNormal poisonedLoaded (.call "" "e" noOpts []) =
      (.error .poisoned, poisonedLoaded) ∧
    loadedStep semNormal poisonedLoaded .snapshotOp = (.error .poisoned, poisonedLoaded) :=
  ⟨(poisoned_rejects_amended semNormal poisonedLoaded (.call "" "e" noOpts []) rfl rfl).1 rfl,
   (poisoned_rejects_amended semNormal poisonedLoaded .snapshotOp rfl rfl).1 rfl⟩

/-! ## C8: option defaulting -/

theorem lookupField_cons_ne (k : String) (v : JsonVal) (r : List (String × JsonVal))
    (key : String) (h : k ≠ key) :
    lookupField ((k, v) :: r) key = lookupField r key := by
  simp [lookupField, List.find?, beq_eq_false_iff_ne.mpr h]

/-- C8: unrecognised option fields are ignored by the call path; an empty
options object behaves identically to an absent one; with the empty
options object no monitors are spawned and a garbage-collection pass is
requested; and the pass is skipped exactly when the gc field is an
explicit false. -/
theorem options_defaulting :
    (∀ sem s n e c r k v, k ∉ recognizedOptionKeys →
      callHandlerRaw sem s n e (some ((k, v) :: r)) c = callHandlerRaw sem s n e (some r) c) ∧
    (∀ sem s n e c,
      callHandlerRaw sem s n e (some []) c = callHandlerRaw sem s n e none c) ∧
    (∀ c, monitorsOf (parseOptions (some [])) c = []) ∧
    gcRequested (parseOptions (some [])) = true ∧
    (∀ opts, gcRequested opts = false ↔ opts.gc = some false) := by
  refine ⟨?_, fun sem s n e c => rfl, fun c => rfl, rfl, ?_⟩
  · intro sem s n e c r k v hk
    have hk3 : ¬(k = "wallClockTimeoutMs") ∧ ¬(k = "cpuTimeoutMs") ∧ ¬(k = "gc") := by
      simpa [recognizedOptionKeys] using hk
    have hpo : parseOptions (some ((k, v) :: r)) = parseOptions (some r) := by
      simp [parseOptions, lookupField_cons_ne k v r _ hk3.1,
        lookupField_cons_ne k v r _ hk3.2.1, lookupField_cons_ne k v r _ hk3.2.2]
    simp [callHandlerRaw, hpo]
  · intro opts
    unfold gcRequested
    cases hgc : opts.gc with
    | none => decide
    | some b => cases b <;> decide

/-- Witness for C8: a concrete call with an unrecognised option field
behaves exactly like the call with that field removed. -/
theorem options_defaulting_w :
    callHandlerRaw semNormal freshLoaded "h" "e" (some [("unknownField", .num 1)]) true =
      callHandlerRaw semNormal freshLoaded "h" "e" (some []) true :=
  options_defaulting.1 semNormal freshLoaded "h" "e" true [] "unknownField" (.num 1)
    (by decide)

/-! ## C9: error enrichment -/

/-- C9: the error-enrichment function of lib.js returns the very object it
was given.  A non-Error value passes through unchanged.  An Error whose
message does not begin with a bracketed ERR code is unchanged.  An Error
whose message begins with a bracketed ERR code followed by optional
whitespace has the code token moved to its code property and the matched
text (brackets and trailing whitespace included) stripped from its
message, all other properties untouched. -/
theorem enrichError_spec :
    (∀ x, enrichError (.nonError x) = .nonError x) ∧
    (∀ e, stripErrCode e.message.data = none → enrichError (.err e) = .err e) ∧
    (∀ e w ws rest,
      w ≠ [] →
      (∀ c ∈ w, isWordChar c = true) →
      (∀ c ∈ ws, isJsSpace c = true) →
      (∀ c, rest.head? = some c → isJsSpace c = false) →
      e.message = String.mk ('[' :: 'E' :: 'R' :: 'R' :: '_' :: (w ++ ']' :: (ws ++ rest))) →
      enrichError (.err e) =
        .err { message := String.mk rest,
               code := some (String.mk ('E' :: 'R' :: 'R' :: '_' :: w)),
               extra := e.extra }) := by
  refine ⟨fun x => rfl, fun e h => by simp only [enrichError, h], ?_⟩
  intro e w ws rest hw hword hspace hrest hmsg
  have hdata : e.message.data = '[' :: 'E' :: 'R' :: 'R' :: '_' :: (w ++ ']' :: (ws ++ rest)) := by
    rw [hmsg]
  have hstrip :
      stripErrCode ('[' :: 'E' :: 'R' :: 'R' :: '_' :: (w ++ ']' :: (ws ++ rest))) =
        some ('E' :: 'R' :: 'R' :: '_' :: w, rest) := by
    obtain ⟨a, w2, rfl⟩ := List.exists_cons_of_ne_nil hw
    have hbr : isWordChar ']' = false := by decide
    have htw : ((a :: w2) ++ ']' :: (ws ++ rest)).takeWhile isWordChar = a :: w2 := by
      rw [takeWhile_append_all _ _ _ hword]
      simp [List.takeWhile_cons, hbr]
    have hdw : ((a :: w2) ++ ']' :: (ws ++ rest)).dropWhile isWordChar = ']' :: (ws ++ rest) := by
      rw [dropWhile_append_all _ _ _ hword]
      simp [List.dropWhile_cons, hbr]
    have hsp : (ws ++ rest).dropWhile isJsSpace = rest := by
      rw [dropWhile_append_all _ _ _ hspace]
      exact dropWhile_head_false _ _ hrest
    simp only [stripErrCode, htw, hdw, hsp]
  simp only [enrichError, hdata, hstrip]

/-- Witness for C9: a concrete non-Error value, a concrete Error without a
code, a concrete Error carrying a bracketed code trailed by an ASCII
space, and one trailed by a no-break space, which the ECMAScript
whitespace class also strips. -/
theorem enrichError_spec_w :
    enrichError (.nonError 7) = .nonError 7 ∧
    enrichError (.err { message := "plain failure", code := none, extra := 3 }) =
      .err { message := "plain failure", code := none, extra := 3 } ∧
    enrichError (.err { message := String.mk ('[' :: 'E' :: 'R' :: 'R' :: '_' :: (['X'] ++ ']' :: ([' '] ++ ['y']))), code := none, extra := 5 }) =
      .err { message := String.mk ['y'],
             code := some (String.mk ('E' :: 'R' :: 'R' :: '_' :: ['X'])),
             extra := 5 } ∧
    enrichError (.err { message := String.mk ('[' :: 'E' :: 'R' :: 'R' :: '_' :: (['X'] ++ ']' :: (['\u00A0'] ++ ['y']))), code := none, extra := 6 }) =
      .err { message := String.mk ['y'],
             code := some (String.mk ('E' :: 'R' :: 'R' :: '_' :: ['X'])),
             extra := 6 } :=
  ⟨enrichError_spec.1 7,
   enrichError_spec.2.1 _ (by decide),
   enrichError_spec.2.2 _ ['X'] [' '] ['y'] (by decide) (by decide) (by decide) (by decide) rfl,
   enrichError_spec.2.2 _ ['X'] ['\u00A0'] ['y'] (by decide) (by decide) (by decide) (by decide)
     rfl⟩

/-! ## C10: guest clock stub -/

/-- C10: the guest clock_gettime stub fills the timespec with the host
seconds and nanoseconds and returns zero for the real-time and monotonic
clock ids, and for every other id returns minus one, sets errno to EINVAL
and leaves the timespec unchanged. -/
theorem clock_gettime_spec (t : Nat × Nat) (clk : Int) (tp : Timespec) :
    ((clk = CLOCK_REALTIME ∨ clk = CLOCK_MONOTONIC) →
      clock_gettime t clk tp =
        { ret := 0, errno := none,
          tp := { tv_sec := Int.ofNat t.1, tv_nsec := Int.ofNat t.2 } }) ∧
    (clk ≠ CLOCK_REALTIME → clk ≠ CLOCK_MONOTONIC →
      clock_gettime t clk tp = { ret := -1, errno := some Errno.EINVAL, tp := tp }) := by
  constructor
  · intro h
    unfold clock_gettime
    rw [if_pos h]
  · intro h1 h2
    unfold clock_gettime
    rw [if_neg (not_or.mpr ⟨h1, h2⟩)]

/-- Witness for C10: the monotonic clock id succeeds with the host time;
the unknown clock id seven fails with EINVAL and an untouched timespec. -/
theorem clock_gettime_spec_w :
    clock_gettime (5, 9) 1 { tv_sec := 1, tv_nsec := 2 } =
      { ret := 0, errno := none, tp := { tv_sec := 5, tv_nsec := 9 } } ∧
    clock_gettime (5, 9) 7 { tv_sec := 1, tv_nsec := 2 } =
      { ret := -1, errno := some Errno.EINVAL, tp := { tv_sec := 1, tv_nsec := 2 } } :=
  ⟨(clock_gettime_spec (5, 9) 1 _).1 (Or.inr rfl),
   (clock_gettime_spec (5, 9) 7 _).2 (by decide) (by decide)⟩

end HyperlightJS
